import Mathlib

/-!
Verification of the jira-record repository's parsing / normalization /
reconciliation layer against its specification.

The Python sources are shallowly embedded:

* JSON values (Python dicts/lists/scalars as produced by `json.loads`)
  become the inductive type `Json`; Python dicts are association lists
  with unique keys (dict insertion order is preserved, so a list model
  is faithful).
* strings are modelled as `List Char` (`Str`); the documents handled by
  the scripts are plain ASCII texts whose lines are terminated by the
  newline character.
* the handful of regular expressions in the sources are embedded as
  hand-rolled matchers for exactly those patterns, mirroring the Python
  `re` backtracking semantics (leftmost match, greedy `\s*`, lazy `.*?`);
* remote calls (`_jira_request` and friends) are modelled by oracle
  parameters, and every function that talks to Jira additionally returns
  the list of remote calls it performed, in order.

Functions named below are from `jira-scripts/sync_to_jira.py`,
`jira-scripts/create_story_in_jira.py` and `jira-scripts/pull_from_jira.py`.
The parsing helpers (`_extract_front_matter_block`, `_parse_section_kv`,
`_parse_inline_list`, `_normalize_adf_marks`, `load_dotenv`) are
byte-for-byte identical between `sync_to_jira.py` and
`create_story_in_jira.py`, so they are embedded once.
-/

set_option maxRecDepth 10000

namespace JiraRecord

/-- Generic JSON tree, the shape of values produced by Python's
`json.loads`: the ADF ("rich-text") documents handled by
`_normalize_adf_marks` are such values.  Python dicts are ordered
association lists with unique keys. -/
inductive Json where
  | null
  | bool (b : Bool)
  | num (n : Int)
  | str (s : String)
  | arr (items : List Json)
  | obj (entries : List (String × Json))
deriving Repr

/-- First-occurrence lookup in an association list: Python `d[k]` /
`d.get(k)` on a dict (keys are unique in any dict, so first = only). -/
def lookupJ (key : String) : List (String × Json) → Option Json
  | [] => none
  | (k, v) :: rest => if k = key then some v else lookupJ key rest

/-- Python `m.get('type') == t` for a mark `m` (a dict): true iff `m` is a
dict whose `"type"` entry is the string `t`.  (On a non-dict mark the
Python code would raise `AttributeError`; the claims are stated under the
well-formedness hypothesis `marksWF` that rules such trees out.) -/
def markTypeIs (t : String) : Json → Bool
  | .obj es =>
    match lookupJ "type" es with
    | some (.str s) => s == t
    | _ => false
  | _ => false

/-- Python `any(m.get('type') == t for m in marks)`. -/
def hasMarkType (t : String) (marks : List Json) : Bool :=
  marks.any (markTypeIs t)

/-- The guard of `_normalize_adf_marks`'s in-place update: the node has a
`'marks'` key holding a list, and that list contains both a `code` and a
`strong` mark (`has_code and has_strong`). -/
def needsFilter (es : List (String × Json)) : Bool :=
  match lookupJ "marks" es with
  | some (.arr ms) => hasMarkType "code" ms && hasMarkType "strong" ms
  | _ => false

mutual

/-- The recursive worker `normalize_node` of `_normalize_adf_marks`
(`sync_to_jira.py` lines 475-489), written functionally (the Python
version first deep-copies the input, so the in-place mutation is
equivalent to returning a fresh tree): on a dict, first replace the
`marks` list by its `code`-typed entries when both `code` and `strong`
are present, then recurse into every dict- or list-valued entry; on a
list, recurse into the items; scalars are returned unchanged. -/
def normalizeNode : Json → Json
  | .obj es => .obj (normalizeEntries (needsFilter es) es)
  | .arr xs => .arr (normalizeList xs)
  | .null => .null
  | .bool b => .bool b
  | .num n => .num n
  | .str s => .str s

/-- Item-wise normalization of a Python list. -/
def normalizeList : List Json → List Json
  | [] => []
  | x :: xs => normalizeNode x :: normalizeList xs

/-- Entry-wise normalization of a dict's items.  When the combined-marks
guard held for the dict (`b = true`), the `marks` entry's list is the one
that was just replaced by `[m for m in node['marks'] if m.get('type') ==
'code']`, so its items are filtered before the recursive visit. -/
def normalizeEntries (b : Bool) : List (String × Json) → List (String × Json)
  | [] => []
  | (k, v) :: rest => (k, normalizeEntryValue b k v) :: normalizeEntries b rest

/-- Normalization of one dict value; the `marks`-list filtering case is
inlined here (see `normalizeEntries`). -/
def normalizeEntryValue (b : Bool) (k : String) : Json → Json
  | .arr ms =>
    if b && k == "marks" then .arr (normalizeMarksFiltered ms)
    else .arr (normalizeList ms)
  | .obj es => .obj (normalizeEntries (needsFilter es) es)
  | .null => .null
  | .bool b2 => .bool b2
  | .num n => .num n
  | .str s => .str s

/-- `[m for m in node['marks'] if m.get('type') == 'code']`, with each
kept mark then visited recursively (the recursive visit happens because
the rewritten list is itself a list-valued entry of the node). -/
def normalizeMarksFiltered : List Json → List Json
  | [] => []
  | m :: ms =>
    if markTypeIs "code" m then normalizeNode m :: normalizeMarksFiltered ms
    else normalizeMarksFiltered ms

end

/-- `_normalize_adf_marks` (`sync_to_jira.py` lines 467-492 and the
identical copy in `create_story_in_jira.py` lines 509-534): deep-copy the
ADF dict and run `normalize_node` over it. -/
def normalizeAdfMarks (adf : List (String × Json)) : List (String × Json) :=
  normalizeEntries (needsFilter adf) adf

mutual

/-- Well-formedness of a tree for `_normalize_adf_marks`: wherever a dict
has a `'marks'` entry holding a list, all items of that list are dicts
(so Python's `m.get('type')` never raises).  Every genuine ADF document
satisfies this (marks are objects). -/
def marksWF : Json → Bool
  | .obj es => marksListWF (lookupJ "marks" es) && marksEntriesWF es
  | .arr xs => marksAllWF xs
  | _ => true

/-- All items of the list are well-formed. -/
def marksAllWF : List Json → Bool
  | [] => true
  | x :: xs => marksWF x && marksAllWF xs

/-- All values of a dict are well-formed. -/
def marksEntriesWF : List (String × Json) → Bool
  | [] => true
  | (_, v) :: rest => marksWF v && marksEntriesWF rest

/-- If the `marks` entry is a list, each item is a dict. -/
def marksListWF : Option Json → Bool
  | some (.arr ms) => ms.all fun m => match m with | .obj _ => true | _ => false
  | _ => true

end

mutual

/-- Spec predicate: no node of the tree "carries both a `code` mark and a
`strong` mark", i.e. no dict anywhere in the tree satisfies the
combined-marks guard of `_normalize_adf_marks`. -/
def noCombo : Json → Bool
  | .obj es => !needsFilter es && noComboEntries es
  | .arr xs => noComboList xs
  | _ => true

/-- All items of a list satisfy `noCombo`. -/
def noComboList : List Json → Bool
  | [] => true
  | x :: xs => noCombo x && noComboList xs

/-- All values of a dict satisfy `noCombo`. -/
def noComboEntries : List (String × Json) → Bool
  | [] => true
  | (_, v) :: rest => noCombo v && noComboEntries rest

end

mutual

/-- Hand-rolled Boolean equality on `Json` (the derive handler does not
support this nested inductive). -/
def jsonBeq : Json → Json → Bool
  | .null, .null => true
  | .bool a, .bool b => a == b
  | .num a, .num b => a == b
  | .str a, .str b => a == b
  | .arr xs, .arr ys => jsonListBeq xs ys
  | .obj es, .obj fs => jsonEntriesBeq es fs
  | _, _ => false

/-- List equality for `jsonBeq`. -/
def jsonListBeq : List Json → List Json → Bool
  | [], [] => true
  | x :: xs, y :: ys => jsonBeq x y && jsonListBeq xs ys
  | _, _ => false

/-- Entry-list equality for `jsonBeq`. -/
def jsonEntriesBeq : List (String × Json) → List (String × Json) → Bool
  | [], [] => true
  | (k, v) :: es, (k2, v2) :: fs => k == k2 && jsonBeq v v2 && jsonEntriesBeq es fs
  | _, _ => false

end

/-! ### Strings

Documents are modelled as lists of characters.  The records these
scripts process are ASCII texts whose lines end in `'\n'` (the scripts
read them with universal-newline translation), which is what the
embeddings below assume wherever Python's `splitlines` appears. -/

/-- Character-list strings. -/
abbrev Str := List Char

/-- Python's whitespace, as used by `str.strip` and by the regex class
`\s` on ASCII text. -/
def isWs (c : Char) : Bool :=
  c = ' ' || c = '\t' || c = '\n' || c = '\r' || c = '\x0b' || c = '\x0c'

/-- Python `str.lstrip()`. -/
def lstrip (s : Str) : Str := s.dropWhile isWs

/-- Python `str.rstrip()`. -/
def rstrip (s : Str) : Str := (s.reverse.dropWhile isWs).reverse

/-- Python `str.strip()`. -/
def strip (s : Str) : Str := rstrip (lstrip s)

/-- Python `s.startswith(pat)` (first argument is the pattern). -/
def startsWithS : Str → Str → Bool
  | [], _ => true
  | _ :: _, [] => false
  | p :: ps, c :: cs => p = c && startsWithS ps cs

/-- Python `s.endswith(pat)`. -/
def endsWithS (pat s : Str) : Bool := startsWithS pat.reverse s.reverse

/-- The text before the first occurrence of `pat` in `s`, when `pat`
occurs (`none` otherwise): `s.split(pat, 1)[0]` / the `pat in s` test. -/
def subFindBefore (pat : Str) : Str → Option Str
  | [] => if pat = [] then some [] else none
  | c :: cs =>
    if startsWithS pat (c :: cs) then some []
    else (subFindBefore pat cs).map (c :: ·)

/-- Python `pat in s` (substring containment). -/
def hasSubstr (pat s : Str) : Bool := (subFindBefore pat s).isSome

/-- Split at the first occurrence of character `ch`:
`(before, after)`, or `none` when `ch` does not occur. -/
def splitFirstChar (ch : Char) : Str → Option (Str × Str)
  | [] => none
  | c :: cs =>
    if c = ch then some ([], cs)
    else (splitFirstChar ch cs).map fun p => (c :: p.1, p.2)

/-- Python `s.split(ch)` (split on every occurrence; never empty). -/
def splitOnChar (ch : Char) : Str → List Str
  | [] => [[]]
  | c :: cs =>
    match splitOnChar ch cs with
    | [] => [[]]
    | h :: t => if c = ch then [] :: h :: t else (c :: h) :: t

/-- Python `s.splitlines()` on `'\n'`-terminated text. -/
def splitLinesNl (s : Str) : List Str :=
  match s with
  | [] => []
  | _ =>
    let p := splitOnChar '\n' s
    if s.getLast? = some '\n' then p.dropLast else p

/-- The sequential double-dequote used by `_parse_section_kv` and
`_parse_inline_list`: strip a surrounding double-quote pair, then strip a
surrounding single-quote pair from the result.  (Python's `v[1:-1]` on a
one-character string yields `""`, as `List.drop 1` + `dropLast` does.) -/
def pyDequoteDouble (v : Str) : Str :=
  let v1 :=
    if startsWithS ['"'] v && endsWithS ['"'] v then (v.drop 1).dropLast else v
  if startsWithS ['\''] v1 && endsWithS ['\''] v1 then (v1.drop 1).dropLast else v1

/-- The single dequote used by `load_dotenv`: strip one surrounding pair
of matching double or single quotes. -/
def pyDequoteOnce (v : Str) : Str :=
  if (startsWithS ['"'] v && endsWithS ['"'] v) ||
      (startsWithS ['\''] v && endsWithS ['\''] v) then (v.drop 1).dropLast
  else v

/-! ### Front-matter extraction (`_extract_front_matter_block`)

The function body (identical in `sync_to_jira.py` lines 288-306 and
`create_story_in_jira.py`) is driven by two regexes, embedded here as
dedicated matchers with Python `re` backtracking semantics:

* strict branch — `re.search(r"^---\s*\n(.*?)\n---\s*\n", md, DOTALL)`:
  anchored at position 0; `\s*` is greedy (tried longest first), the
  lazy `(.*?)` body shortest first;
* legacy branch — `re.search(r"^(.*?)(?:\n---\s*\n)", md, DOTALL)`:
  the shortest prefix followed by a `\n---`, whitespace, `\n` separator.
-/

/-- All ways to read `\s*\n` at the head of `s`: pairs `(w, rest)` with
`s = w ++ '\n' :: rest` and `w` all-whitespace, ordered by increasing
`|w|` (so the regex engine's greedy preference is the last element). -/
def nlSplits : Str → List (Str × Str)
  | [] => []
  | c :: s =>
    (if c = '\n' then [(([] : Str), s)] else []) ++
      (if isWs c then (nlSplits s).map fun p => (c :: p.1, p.2) else [])

/-- Does `s` begin with the separator `\n---\s*\n`?  (Used for the close
of the strict front-matter pattern and for the legacy separator.) -/
def sepHere (s : Str) : Bool :=
  startsWithS ['\n', '-', '-', '-'] s && !(nlSplits (s.drop 4)).isEmpty

/-- Lazy search for the separator: the shortest prefix `B` of `s` such
that the separator `\n---\s*\n` starts right after `B` (`none` when no
separator occurs).  This is exactly `^(.*?)(?:\n---\s*\n)` on `s`. -/
def lazyBodyTo : Str → Option Str
  | [] => none
  | c :: cs =>
    if sepHere (c :: cs) then some []
    else (lazyBodyTo cs).map (c :: ·)

/-- The strict pattern `^---\s*\n(.*?)\n---\s*\n` on `md`: `md` must
start with `---`; then the greedy `\s*\n` alternatives are tried longest
first, and for each the lazy body search runs.  Returns `group(1)`. -/
def fmStrictMatch (md : Str) : Option Str :=
  if startsWithS ['-', '-', '-'] md then
    ((nlSplits (md.drop 3)).reverse).findSome? fun p => lazyBodyTo p.2
  else none

/-- Errors raised by the embedded parsing layer.  The Python sources
raise `ValueError` with a message; the spec's `FormatError` /
`ValidationError` taxonomy maps onto the constructors below. -/
inductive ParseErr where
  | noYamlTerminator                      -- "Could not find terminating '---' ..."
  | noLegacyTerminator                    -- "Could not find YAML front matter terminator ..."
  | missingSection (name : Str)           -- "Missing '<name>:' section in front matter"
  | storyKeyRequired                      -- "user_story.jira_key is required"
  | storyParentRequired                   -- "user_story.parent_key (Feature key) is required"
  | subtaskParentMismatch (storyKey : Str) -- "subtask.parent_key must match user_story.jira_key (...)"
  | adfErr (msg : Str)                    -- "Invalid JSON in ADF block ..."
deriving DecidableEq, Repr

/-- `_extract_front_matter_block(md)`: if `md.lstrip()` starts with
`---`, the strict pattern must match (else `ValueError`); otherwise the
legacy pattern `^(.*?)(?:\n---\s*\n)` must match (else `ValueError`). -/
def extractFrontMatterBlock (md : Str) : Except ParseErr Str :=
  if startsWithS ['-', '-', '-'] (lstrip md) then
    match fmStrictMatch md with
    | some b => .ok b
    | none => .error .noYamlTerminator
  else
    match lazyBodyTo md with
    | some b => .ok b
    | none => .error .noLegacyTerminator

/-! ### Section extraction (`_parse_section_kv`)

Identical in both scripts.  The section regex
`(?m)^<name>:\s*\n(.*?)(?=^\S|\Z)` (with DOTALL) matches at the first
line that consists of `<name>:` followed only by whitespace; the greedy
`\s*\n` swallows trailing blank space up to its last newline; the lazy
body then extends to the first subsequent line-start holding a
non-whitespace character, or to the end of the block. -/

/-- Regex class `[A-Za-z0-9_]`. -/
def isWordChar (c : Char) : Bool := c.isAlphanum || c = '_'

/-- Characters from a line-start position up to (excluding) the first
line-start that carries a non-whitespace character — the lazy
`(.*?)(?=^\S|\Z)` body.  The Boolean tracks "at line start". -/
def takeBodyAux : Bool → Str → Str
  | _, [] => []
  | atStart, c :: t =>
    if atStart && !isWs c then [] else c :: takeBodyAux (c = '\n') t

/-- Attempt the section pattern at this position (which the caller
guarantees is a line start): `<name>:`, then the greedy `\s*\n`
(longest alternative first — body matching never fails, so the longest
wins), then the lazy body. -/
def sectionHere (name : Str) (s : Str) : Option Str :=
  if startsWithS (name ++ [':']) s then
    match (nlSplits (s.drop (name.length + 1))).getLast? with
    | some p => some (takeBodyAux true p.2)
    | none => none
  else none

/-- Scan `s` for the first line start where the section pattern matches
(`re.search` with a multiline `^`-anchored pattern). -/
def findSectionAux (name : Str) : Bool → Str → Option Str
  | _, [] => none
  | atStart, c :: t =>
    match (if atStart then sectionHere name (c :: t) else none) with
    | some b => some b
    | none => findSectionAux name (c = '\n') t

/-- `re.search(rf"(?m)^<name>:\s*\n(.*?)(?=^\S|\Z)", block, DOTALL)`. -/
def findSectionBody (name : Str) (block : Str) : Option Str :=
  findSectionAux name true block

/-- The per-line regex `^\s+([A-Za-z0-9_]+)\s*:\s*(.*)$` of
`_parse_section_kv`: required leading whitespace, an identifier, an
optionally space-padded colon, then the raw value.  (All the star/plus
pieces act on disjoint character classes here, so greedy matching without
backtracking is exact.) -/
def matchKvLine (s : Str) : Option (Str × Str) :=
  let wsRun := s.takeWhile isWs
  if wsRun.isEmpty then none
  else
    let r1 := s.drop wsRun.length
    let ident := r1.takeWhile isWordChar
    if ident.isEmpty then none
    else
      match (r1.drop ident.length).dropWhile isWs with
      | ':' :: r4 => some (ident, r4.dropWhile isWs)
      | _ => none

/-- One body line of `_parse_section_kv`: drop everything from the first
`#` on and right-strip; skip blank results; match the key/value regex;
strip and dequote the value. -/
def sectionKvLine (line : Str) : Option (Str × Str) :=
  let lineNoComment :=
    rstrip (match splitFirstChar '#' line with | some p => p.1 | none => line)
  if (strip lineNoComment).isEmpty then none
  else
    match matchKvLine lineNoComment with
    | some (k, v) => some (k, pyDequoteDouble (strip v))
    | none => none

/-- Association-list lookup for string keys (Python dict read). -/
def lookupS (key : Str) : List (Str × Str) → Option Str
  | [] => none
  | (k, v) :: rest => if k = key then some v else lookupS key rest

/-- Python dict assignment `out[k] = v`: replace in place, else append. -/
def setKV : List (Str × Str) → Str → Str → List (Str × Str)
  | [], k, v => [(k, v)]
  | (k2, v2) :: rest, k, v =>
    if k2 = k then (k, v) :: rest else (k2, v2) :: setKV rest k v

/-- Python `d.get(key, "")`. -/
def kvGet (d : List (Str × Str)) (key : Str) : Str := (lookupS key d).getD []

/-- `_parse_section_kv(block, name)` (both scripts): find the section
body, then fold the recognized key/value lines into a dict. -/
def parseSectionKv (name : Str) (block : Str) : Except ParseErr (List (Str × Str)) :=
  match findSectionBody name block with
  | none => .error (.missingSection name)
  | some body =>
    .ok ((splitLinesNl body).foldl
      (fun acc line =>
        match sectionKvLine line with
        | some (k, v) => setKV acc k v
        | none => acc) [])

/-- `_parse_inline_list` (both scripts): `[]`, a bracketed
comma-separated list with per-element strip/dequote and empty-element
filtering, or a bare value as a one-element list.  (The source strips
each part twice in a row; `strip` is applied once here, which is the
same function.) -/
def parseInlineList (value : Str) : List Str :=
  let v := strip value
  if v = ['[', ']'] then []
  else if startsWithS ['['] v && endsWithS [']'] v then
    let inner := strip ((v.drop 1).dropLast)
    if inner.isEmpty then []
    else
      (splitOnChar ',' inner).foldr
        (fun p acc =>
          let p2 := pyDequoteDouble (strip p)
          if p2.isEmpty then acc else p2 :: acc) []
  else [v]

/-! ### Record metas and validation (`_parse_combo_record`) -/

/-- The `StoryMeta` dataclass (both scripts). -/
structure StoryMeta where
  jiraKey : Str
  parentKey : Str
  status : Str
  teamId : Str
  sprintId : Str
  pmOwner : Str
  assignee : Str
  storyPoints : Str
  labels : List Str
deriving Repr, DecidableEq

/-- The `SubtaskMeta` dataclass (both scripts). -/
structure SubtaskMeta where
  jiraKey : Str
  parentKey : Str
  status : Str
  teamId : Str
  sprintId : Str
  assignee : Str
  storyPoints : Str
deriving Repr, DecidableEq

/-- Lines 365-390 of `sync_to_jira.py` (`_parse_combo_record` up to and
excluding the validations; textually identical in
`create_story_in_jira.py`): extract the front matter, parse the
`user_story` and `subtask` sections and build both metas with
stripped values (`labels` parsed from `us.get("labels", "[]")`). -/
def buildMetas (md : Str) : Except ParseErr (StoryMeta × SubtaskMeta) := do
  let fm ← extractFrontMatterBlock md
  let us ← parseSectionKv "user_story".toList fm
  let st ← parseSectionKv "subtask".toList fm
  let labels := parseInlineList ((lookupS "labels".toList us).getD ['[', ']'])
  .ok
    ({ jiraKey := strip (kvGet us "jira_key".toList)
       parentKey := strip (kvGet us "parent_key".toList)
       status := strip (kvGet us "status".toList)
       teamId := strip (kvGet us "team_id".toList)
       sprintId := strip (kvGet us "sprint_id".toList)
       pmOwner := strip (kvGet us "pm_owner".toList)
       assignee := strip (kvGet us "assignee".toList)
       storyPoints := strip (kvGet us "story_points".toList)
       labels := labels },
     { jiraKey := strip (kvGet st "jira_key".toList)
       parentKey := strip (kvGet st "parent_key".toList)
       status := strip (kvGet st "status".toList)
       teamId := strip (kvGet st "team_id".toList)
       sprintId := strip (kvGet st "sprint_id".toList)
       assignee := strip (kvGet st "assignee".toList)
       storyPoints := strip (kvGet st "story_points".toList) })

/-- The validation block of the sync-path `_parse_combo_record`
(`sync_to_jira.py` lines 392-398): story key and parent required, and a
subtask with a remote identifier must point at its story. -/
def validateSyncMetas (s : StoryMeta) (t : SubtaskMeta) : Except ParseErr Unit :=
  if s.jiraKey.isEmpty then .error .storyKeyRequired
  else if s.parentKey.isEmpty then .error .storyParentRequired
  else if !t.jiraKey.isEmpty && t.parentKey ≠ s.jiraKey then
    .error (.subtaskParentMismatch s.jiraKey)
  else .ok ()

/-- The validation block of the create-path `_parse_combo_record`
(`create_story_in_jira.py` lines 466-467): only the story's parent
(Feature) key is required — there is no subtask/story parent check. -/
def validateCreateMetas (s : StoryMeta) : Except ParseErr Unit :=
  if s.parentKey.isEmpty then .error .storyParentRequired else .ok ()

/-- ADF dicts keyed by Jira custom-field id. -/
def AdfMap := List (Str × Json)

/-- `ParsedRecord` of `sync_to_jira.py`. -/
structure ParsedRecord where
  story : StoryMeta
  subtask : SubtaskMeta
  storyAdf : AdfMap
  subtaskAdf : AdfMap

/-- `_parse_combo_record` of `sync_to_jira.py` (lines 364-401).  The ADF
block extraction `_extract_adf_blocks` runs after the validations and is
abstracted by the `extractAdf` parameter (none of the claims depends on
its behaviour; theorems quantify over it). -/
def parseComboRecordSync (extractAdf : Str → Except ParseErr (AdfMap × AdfMap))
    (md : Str) : Except ParseErr ParsedRecord :=
  match buildMetas md with
  | .error e => .error e
  | .ok (s, t) =>
    match validateSyncMetas s t with
    | .error e => .error e
    | .ok _ =>
      match extractAdf md with
      | .error e => .error e
      | .ok (sa, ta) => .ok ⟨s, t, sa, ta⟩

/-- `ParsedRecord` of `create_story_in_jira.py` (adds the summaries). -/
structure ParsedRecordC where
  story : StoryMeta
  subtask : SubtaskMeta
  storySummary : Str
  subtaskSummary : Str
  storyAdf : AdfMap
  subtaskAdf : AdfMap

/-- `_parse_combo_record` of `create_story_in_jira.py` (lines 437-486).
`_extract_summary_from_section` never raises and its output does not
feed any claim, so it is abstracted by the `extractSummary` parameter
(md, section name ↦ summary); `_extract_adf_blocks` is abstracted as in
the sync path. -/
def parseComboRecordCreate (extractAdf : Str → Except ParseErr (AdfMap × AdfMap))
    (extractSummary : Str → Str → Str) (md : Str) : Except ParseErr ParsedRecordC :=
  match buildMetas md with
  | .error e => .error e
  | .ok (s, t) =>
    match validateCreateMetas s with
    | .error e => .error e
    | .ok _ =>
      match extractAdf md with
      | .error e => .error e
      | .ok (sa, ta) =>
        .ok ⟨s, t, extractSummary md "story".toList,
             extractSummary md "subtask".toList, sa, ta⟩

/-! ### `.env` loading (`load_dotenv`)

Two variants exist in the repository.  The sync/create family
(`sync_to_jira.py` lines 97-141, byte-identical in
`create_story_in_jira.py`, `create_epic_in_jira.py`,
`sync_feature_to_jira.py`) strips inline ` #` comments from unquoted
values; the pull family (`pull_from_jira.py` lines 59-103, byte-identical
in `pull_epic_from_jira.py`, `pull_feature_from_jira.py`) does not.
The models below take the file's content (the path/existence checks and
the `True`/`False` return are outside the claims) and thread the
environment explicitly; `os.environ` is an insertion-ordered map, reusing
`lookupS`/`setKV`. -/

/-- The process environment. -/
abbrev EnvMap := List (Str × Str)

/-- Value post-processing of the sync/create-family loader: drop an
inline ` #` comment from a non-empty unquoted value
(`value.split(" #", 1)[0].rstrip()`), then strip surrounding quotes. -/
def dotenvValueSync (v : Str) : Str :=
  let v2 :=
    if !v.isEmpty && !(startsWithS ['"'] v || startsWithS ['\''] v) &&
        hasSubstr [' ', '#'] v then
      rstrip ((subFindBefore [' ', '#'] v).getD v)
    else v
  pyDequoteOnce v2

/-- Value post-processing of the pull-family loader: only strip
surrounding quotes. -/
def dotenvValuePull (v : Str) : Str := pyDequoteOnce v

/-- One line of the sync/create-family `load_dotenv`: strip; skip blanks
and `#` comments; drop an `export ` marker (then `lstrip`); require an
`=`; split at the first `=`; strip key and value; skip an empty key;
post-process the value. -/
def dotenvLineSync (raw : Str) : Option (Str × Str) :=
  let line := strip raw
  if line.isEmpty || startsWithS ['#'] line then none
  else
    let line2 := if startsWithS "export ".toList line then lstrip (line.drop 7) else line
    match splitFirstChar '=' line2 with
    | none => none
    | some (k0, v0) =>
      let k := strip k0
      let v := strip v0
      if k.isEmpty then none
      else some (k, dotenvValueSync v)

/-- One line of the pull-family `load_dotenv`: as above but the `export `
marker is followed by `strip`, there is no empty-key skip, and the value
keeps any inline comment. -/
def dotenvLinePull (raw : Str) : Option (Str × Str) :=
  let line := strip raw
  if line.isEmpty || startsWithS ['#'] line then none
  else
    let line2 := if startsWithS "export ".toList line then strip (line.drop 7) else line
    match splitFirstChar '=' line2 with
    | none => none
    | some (k0, v0) => some (strip k0, dotenvValuePull (strip v0))

/-- The store rule shared by both variants:
`if override or key not in os.environ: os.environ[key] = value`. -/
def dotenvStore (override : Bool) (env : EnvMap) : Option (Str × Str) → EnvMap
  | none => env
  | some (k, v) =>
    if override || (lookupS k env).isNone then setKV env k v else env

/-- The sync/create-family `load_dotenv`, applied to file content. -/
def loadDotenvSync (content : Str) (override : Bool) (env0 : EnvMap) : EnvMap :=
  (splitLinesNl content).foldl
    (fun env l => dotenvStore override env (dotenvLineSync l)) env0

/-- The pull-family `load_dotenv`, applied to file content. -/
def loadDotenvPull (content : Str) (override : Bool) (env0 : EnvMap) : EnvMap :=
  (splitLinesNl content).foldl
    (fun env l => dotenvStore override env (dotenvLinePull l)) env0

/-! ### Remote calls, transitions and the push path

`_jira_request` and its wrappers are remote HTTP calls.  Reads are
answered by oracle structures (universally quantified in the theorems);
every embedded function that can talk to Jira also returns the ordered
list of remote calls it performed. -/

/-- Python `str.strip()` on the `String`-typed values that flow through
the JSON layer. -/
def stripString (s : String) : String := (strip s.toList).asString

/-- Python substring test `pat in s` for `String`s. -/
def hasSubstrStr (pat s : String) : Bool := hasSubstr pat.toList s.toList

/-- Python truthiness of a JSON value (`if not x` / `x or y`). -/
def jTruthy : Json → Bool
  | .null => false
  | .bool b => b
  | .num n => n != 0
  | .str s => s != ""
  | .arr l => !l.isEmpty
  | .obj l => !l.isEmpty

/-- Python truthiness of `d.get(k)` (missing key gives `None`). -/
def optTruthy : Option Json → Bool
  | none => false
  | some j => jTruthy j

/-- One remote (Jira REST v3) call. -/
inductive RemoteCall where
  | getIssue (issueKey : String) (fields : List String)        -- jira_get_issue
  | getTransitions (issueKey : String)                         -- jira_get_transitions
  | postTransition (issueKey : String) (transitionId : Option Json) -- jira_transition
  | putFields (issueKey : String) (fields : List (String × Json))   -- jira_update_issue_fields
deriving Repr

/-- Oracle for the remote reads performed by `_maybe_transition`. -/
structure TransOracle where
  getIssue : String → List String → List (String × Json)
  getTransitions : String → List (List (String × Json))

/-- `(((issue.get("fields") or {}).get("status") or {}).get("name")) or ""`
(`sync_to_jira.py` line 619).  A falsy value anywhere in the chain
becomes `{}` / `""` exactly as in Python; a truthy non-dict (or a truthy
non-string name) would raise in Python and is ruled out by
`issueStatusWF`. -/
def statusNameOf (issue : List (String × Json)) : String :=
  match lookupJ "fields" issue with
  | some (.obj fs) =>
    (match lookupJ "status" fs with
     | some (.obj st) =>
       (match lookupJ "name" st with
        | some (.str s) => s
        | _ => "")
     | _ => "")
  | _ => ""

/-- Responses on which the Python status-extraction chain does not
raise: each step is absent, falsy, or of the expected type. -/
def issueStatusWF (issue : List (String × Json)) : Bool :=
  match lookupJ "fields" issue with
  | none => true
  | some (.obj fs) =>
    (match lookupJ "status" fs with
     | none => true
     | some (.obj st) =>
       (match lookupJ "name" st with
        | none => true
        | some (.str _) => true
        | some j => !jTruthy j)
     | some j => !jTruthy j)
  | some j => !jTruthy j

/-- `(t.get("to") or {}).get("name") == desired` for a transition dict
(line 627-628): true iff the destination name is the string `desired`. -/
def toMatches (desired : String) (t : List (String × Json)) : Bool :=
  match lookupJ "to" t with
  | some (.obj es) =>
    (match lookupJ "name" es with
     | some (.str s) => s == desired
     | _ => false)
  | _ => false

/-- `t.get("name") == desired` (line 635, the fallback match). -/
def nameMatches (desired : String) (t : List (String × Json)) : Bool :=
  match lookupJ "name" t with
  | some (.str s) => s == desired
  | _ => false

/-- `t.get("id")`. -/
def transId (t : List (String × Json)) : Option Json := lookupJ "id" t

/-- `t.get('to', {}).get('name')`, as listed in the `TransitionError`
diagnostics (line 642). -/
def availToName (t : List (String × Json)) : Option Json :=
  match lookupJ "to" t with
  | some (.obj es) => lookupJ "name" es
  | _ => none

/-- The transition's `to` entry is absent or a dict (else the Python
diagnostics line would raise). -/
def transToOk (t : List (String × Json)) : Bool :=
  match lookupJ "to" t with
  | none => true
  | some (.obj _) => true
  | some _ => false

/-- The transition carries a truthy `id` (as real Jira transitions do);
a falsy id would drop the code into its name-match fallback. -/
def transIdOk (t : List (String × Json)) : Bool := optTruthy (lookupJ "id" t)

/-- Well-formed transition dict. -/
def transWF (t : List (String × Json)) : Bool := transToOk t && transIdOk t

/-- `TransitionError` of the spec: the `JiraApiError` raised on line 640,
carrying the current and desired labels and the available destination
names. -/
inductive TransErr where
  | noTransition (issueKey current desired : String)
      (available : List (Option Json))
deriving Repr

/-- `_maybe_transition` (`sync_to_jira.py` lines 614-650): resolve and
apply a status transition, with remote reads answered by `o`; the second
component records the remote calls performed, in order. -/
def maybeTransition (o : TransOracle) (issueKey desiredStatus : String)
    (dryRun : Bool) : Except TransErr Unit × List RemoteCall :=
  let desired := stripString desiredStatus
  if desired == "" then (.ok (), [])
  else
    let issue := o.getIssue issueKey ["status"]
    let calls1 := [RemoteCall.getIssue issueKey ["status"]]
    let current := statusNameOf issue
    if stripString current == desired then (.ok (), calls1)
    else
      let ts := o.getTransitions issueKey
      let calls2 := calls1 ++ [RemoteCall.getTransitions issueKey]
      let tid1 :=
        match ts.find? (toMatches desired) with
        | some t => transId t
        | none => none
      let tid :=
        if optTruthy tid1 then tid1
        else
          match ts.find? (nameMatches desired) with
          | some t => transId t
          | none => none
      if !optTruthy tid then
        (.error (.noTransition issueKey current desired (ts.map availToName)), calls2)
      else if dryRun then (.ok (), calls2)
      else (.ok (), calls2 ++ [RemoteCall.postTransition issueKey tid])

/-! ### Push path (`sync_to_jira._process_single_file`, lines 667-754)

The phase downstream of parsing: credentials check, the two update
calls with their narrow retry rules, and the optional status
transitions.  The outgoing field sets are parameters (they are built by
`_build_story_update` / `_build_subtask_update`, whose user-search reads
happen upstream of this phase), as are the record's keys and statuses. -/

/-- `CF_SPRINT = "customfield_10020"`. -/
def CF_SPRINT : String := "customfield_10020"

/-- The error text Jira sends when assigning a closed sprint
(line 707). -/
def sprintClosedMsg : String := "can be assigned only active or future sprints"

/-- Warnings printed by the push path. -/
inductive PushWarn where
  | sprintClosedRetry
  | parentRetry
  | storyTransitionWarn
  | subtaskTransitionWarn
  | skipTransitionNoEnv
deriving DecidableEq, Repr

/-- Oracle for the push path: the result of
`jira_update_issue_fields(key, fields)` (`str(e)` of a `JiraApiError`
on failure), plus the transition reads. -/
structure SyncOracle where
  updateFields : String → List (String × Json) → Except String Unit
  trans : TransOracle

/-- Result of processing one record: the returned Boolean, the remote
calls of this phase, and the warnings printed. -/
structure PushOutcome where
  ok : Bool
  calls : List RemoteCall
  warns : List PushWarn
deriving Repr

/-- The story update with its closed-sprint retry (lines 702-718): on a
rejection whose message contains `sprintClosedMsg` while the outgoing
set carries the sprint field, retry once with that field stripped. -/
def pushStoryPhase (o : SyncOracle) (storyKey : String)
    (storyFields : List (String × Json)) : Bool × List RemoteCall × List PushWarn :=
  match o.updateFields storyKey storyFields with
  | .ok _ => (true, [.putFields storyKey storyFields], [])
  | .error e =>
    if hasSubstrStr sprintClosedMsg e && (lookupJ CF_SPRINT storyFields).isSome then
      let stripped := storyFields.filter fun p => p.1 ≠ CF_SPRINT
      match o.updateFields storyKey stripped with
      | .ok _ =>
        (true, [.putFields storyKey storyFields, .putFields storyKey stripped],
         [.sprintClosedRetry])
      | .error _ =>
        (false, [.putFields storyKey storyFields, .putFields storyKey stripped],
         [.sprintClosedRetry])
    else (false, [.putFields storyKey storyFields], [])

/-- The subtask update with its parent retry (lines 721-738). -/
def pushSubtaskPhase (o : SyncOracle) (subtaskKey : String)
    (subtaskFields : List (String × Json)) : Bool × List RemoteCall × List PushWarn :=
  match o.updateFields subtaskKey subtaskFields with
  | .ok _ => (true, [.putFields subtaskKey subtaskFields], [])
  | .error e =>
    if hasSubstrStr "parent" e || hasSubstrStr "Parent" e then
      let stripped := subtaskFields.filter fun p => p.1 ≠ "parent"
      match o.updateFields subtaskKey stripped with
      | .ok _ =>
        (true, [.putFields subtaskKey subtaskFields, .putFields subtaskKey stripped],
         [.parentRetry])
      | .error _ =>
        (false, [.putFields subtaskKey subtaskFields, .putFields subtaskKey stripped],
         [.parentRetry])
    else (false, [.putFields subtaskKey subtaskFields], [])

/-- The transition step (lines 740-752): skipped under
`--no-transition`; a warning without remote calls when credentials are
missing; otherwise the story (and, when present, subtask) transitions,
each failure downgraded to a warning. -/
def transPhase (ot : TransOracle) (canCall : Bool)
    (storyKey subtaskKey storyStatus subtaskStatus : String)
    (dryRun noTransition : Bool) : List RemoteCall × List PushWarn :=
  if noTransition then ([], [])
  else if !canCall then ([], [.skipTransitionNoEnv])
  else
    let r1 := maybeTransition ot storyKey storyStatus dryRun
    let w1 : List PushWarn :=
      match r1.1 with | .ok _ => [] | .error _ => [.storyTransitionWarn]
    if subtaskKey != "" then
      let r2 := maybeTransition ot subtaskKey subtaskStatus dryRun
      let w2 : List PushWarn :=
        match r2.1 with | .ok _ => [] | .error _ => [.subtaskTransitionWarn]
      (r1.2 ++ r2.2, w1 ++ w2)
    else (r1.2, w1)

/-- `_process_single_file` of `sync_to_jira.py` after parsing and field
building (lines 667-754): missing credentials are fatal outside dry-run;
in dry-run the field sets are only printed; otherwise story then subtask
updates run with their retry rules; finally the transition step. -/
def processParsedSync (o : SyncOracle) (env : String → String)
    (storyKey subtaskKey : String)
    (storyFields subtaskFields : List (String × Json))
    (storyStatus subtaskStatus : String)
    (dryRun noTransition : Bool) : PushOutcome :=
  let canCall := (env "JIRA_BASE_URL" != "") && (env "JIRA_EMAIL" != "") &&
    (env "JIRA_API_TOKEN" != "")
  if !canCall && !dryRun then ⟨false, [], []⟩
  else if dryRun then
    let tp := transPhase o.trans canCall storyKey subtaskKey storyStatus
      subtaskStatus dryRun noTransition
    ⟨true, tp.1, tp.2⟩
  else
    match pushStoryPhase o storyKey storyFields with
    | (false, c, w) => ⟨false, c, w⟩
    | (true, c, w) =>
      if subtaskKey != "" then
        match pushSubtaskPhase o subtaskKey subtaskFields with
        | (false, c2, w2) => ⟨false, c ++ c2, w ++ w2⟩
        | (true, c2, w2) =>
          let tp := transPhase o.trans canCall storyKey subtaskKey storyStatus
            subtaskStatus dryRun noTransition
          ⟨true, c ++ c2 ++ tp.1, w ++ w2 ++ tp.2⟩
      else
        let tp := transPhase o.trans canCall storyKey subtaskKey storyStatus
          subtaskStatus dryRun noTransition
        ⟨true, c ++ tp.1, w ++ tp.2⟩

/-! ### Create path skip (`create_story_in_jira._process_single_file`) -/

/-- Lines 723-745 of `create_story_in_jira._process_single_file`: read
the file (content given), parse it, and skip — reporting success — when
the story already carries a remote identifier.  Everything after the
skip branch (credentials check, field building, creation calls, local
rewriting) is abstracted by `rest`; the theorems quantify over it, so the
conclusion holds whatever the remainder does. -/
def processCreateFile (extractAdf : Str → Except ParseErr (AdfMap × AdfMap))
    (extractSummary : Str → Str → Str)
    (rest : ParsedRecordC → Bool × List RemoteCall) (md : Str) :
    Bool × List RemoteCall :=
  match parseComboRecordCreate extractAdf extractSummary md with
  | .error _ => (false, [])
  | .ok r => if r.story.jiraKey ≠ [] then (true, []) else rest r

/-- All-whitespace strings (the language of the regex `\s*`). -/
def AllWsP (w : Str) : Prop := ∀ c ∈ w, isWs c = true

/-- The decomposition recognized by the strict front-matter pattern
`^---\s*\n(.*?)\n---\s*\n` with body `B`. -/
def StrictShape (md w B w2 rest : Str) : Prop :=
  md = '-' :: '-' :: '-' :: (w ++ '\n' :: (B ++ '\n' :: '-' :: '-' :: '-' ::
    (w2 ++ '\n' :: rest))) ∧ AllWsP w ∧ AllWsP w2

/-- The decomposition recognized by the legacy pattern
`^(.*?)(?:\n---\s*\n)` with body `A`. -/
def LegacyShape (md A w rest : Str) : Prop :=
  md = A ++ '\n' :: '-' :: '-' :: '-' :: (w ++ '\n' :: rest) ∧ AllWsP w

/-- Two-entity document whose subtask carries a remote identifier
(`WOR-3`) and a parent reference (`WOR-9`) different from the story's
identifier (`WOR-1`): the C3 counterexample input. -/
def docMismatch : Str :=
  ("---\nuser_story:\n  jira_key: \"WOR-1\"\n  parent_key: \"WOR-2\"\nsubtask:\n  jira_key: \"WOR-3\"\n  parent_key: \"WOR-9\"\n---\nbody\n").toList

/-- Story meta parsed from `docMismatch`. -/
def storyMismatch : StoryMeta :=
  { jiraKey := "WOR-1".toList, parentKey := "WOR-2".toList, status := []
    teamId := [], sprintId := [], pmOwner := [], assignee := []
    storyPoints := [], labels := [] }

/-- Subtask meta parsed from `docMismatch`. -/
def subtaskMismatch : SubtaskMeta :=
  { jiraKey := "WOR-3".toList, parentKey := "WOR-9".toList, status := []
    teamId := [], sprintId := [], assignee := [], storyPoints := [] }

/-- Legacy-format document for the C5 counterexample: it does not start
with `---`, yet front-matter extraction succeeds. -/
def docLegacy : Str := ("a: b\n---\nrest").toList

/-- Concrete ADF document (as a dict) used to witness C1: one text node
carrying the combined `code` + `strong` marks. -/
def adfEx1 : List (String × Json) :=
  [("type", .str "doc"),
   ("content", .arr [
     .obj [("type", .str "text"), ("text", .str "x"),
           ("marks", .arr [.obj [("type", .str "code")],
                           .obj [("type", .str "strong")]])]])]

/-- Mark list `[code, strong, em]` for the C2 counterexample. -/
def marksListEx2 : List Json :=
  [.obj [("type", .str "code")],
   .obj [("type", .str "strong")],
   .obj [("type", .str "em")]]

/-- Concrete ADF node for the C2 counterexample: marks
`[code, strong, em]`.  The claim predicts that only the `strong` mark is
dropped; the code keeps only the `code` mark. -/
def nodeEx2 : List (String × Json) :=
  [("type", .str "text"), ("text", .str "x"), ("marks", .arr marksListEx2)]

/-- The mark list that C2, as stated, predicts for `nodeEx2`: the input
marks with the bold mark dropped and every other mark kept. -/
def claimPredictedMarksEx2 : List Json :=
  [.obj [("type", .str "code")], .obj [("type", .str "em")]]

/-- Oracle whose issue status is already `Done` (C6). -/
def oracleDone : TransOracle :=
  { getIssue := fun _ _ =>
      [("fields", .obj [("status", .obj [("name", .str "Done")])])]
    getTransitions := fun _ => [] }

/-- A transition towards `In Progress` (C8 witness). -/
def transStart : List (String × Json) :=
  [("id", .str "11"), ("name", .str "Start"),
   ("to", .obj [("name", .str "In Progress")])]

/-- A transition towards `Done` (C8 witness). -/
def transDone : List (String × Json) :=
  [("id", .str "21"), ("name", .str "Done"),
   ("to", .obj [("name", .str "Done")])]

/-- Oracle with current status `To Do` offering the two transitions
above (C8 witness). -/
def oracleToDo : TransOracle :=
  { getIssue := fun _ _ =>
      [("fields", .obj [("status", .obj [("name", .str "To Do")])])]
    getTransitions := fun _ => [transStart, transDone] }

/-- Update oracle that rejects any field set containing the sprint field
with the closed-sprint message and accepts everything else (C7
witness). -/
def oracleSprintClosed : SyncOracle :=
  { updateFields := fun _ fields =>
      if (lookupJ CF_SPRINT fields).isSome then
        .error "Issue can be assigned only active or future sprints"
      else .ok ()
    trans := oracleDone }

/-- An outgoing story field set carrying the sprint field (C7
witness). -/
def sprintFieldsEx : List (String × Json) :=
  [("customfield_10020", .num 5), ("labels", .arr [.str "x"])]

/-! ## Theorems -/

/-- Unfolding `normalizeList` to a `List.map`. -/
theorem normalizeList_eq_map (xs : List Json) :
    normalizeList xs = xs.map normalizeNode := by
  induction xs with
  | nil => rfl
  | cons x xs ih => simp [normalizeList, ih]

/-- Unfolding `normalizeEntries` to a `List.map`. -/
theorem normalizeEntries_eq_map (b : Bool) (es : List (String × Json)) :
    normalizeEntries b es = es.map fun p => (p.1, normalizeEntryValue b p.1 p.2) := by
  induction es with
  | nil => rfl
  | cons p rest ih => obtain ⟨k, v⟩ := p; simp [normalizeEntries, ih]

/-- Unfolding `normalizeMarksFiltered` to a filter-then-map. -/
theorem normalizeMarksFiltered_eq (ms : List Json) :
    normalizeMarksFiltered ms = (ms.filter (markTypeIs "code")).map normalizeNode := by
  induction ms with
  | nil => rfl
  | cons m ms ih =>
    by_cases h : markTypeIs "code" m = true <;>
      simp [normalizeMarksFiltered, List.filter_cons, h, ih]

/-- When the combined-marks guard is off (or the key is not `marks`),
normalizing a dict value is just the recursive visit. -/
theorem normalizeEntryValue_eq_node (b : Bool) (k : String) (v : Json)
    (h : (b && (k == "marks")) = false) :
    normalizeEntryValue b k v = normalizeNode v := by
  cases v <;> simp [normalizeEntryValue, normalizeNode, h]

/-- A normalized dict value is a string iff the original value was that
string (normalization preserves the constructor). -/
theorem normalizeEntryValue_str_iff (b : Bool) (k : String) (v : Json) (s : String) :
    normalizeEntryValue b k v = .str s ↔ v = .str s := by
  cases v <;> simp [normalizeEntryValue] <;> split <;> simp

/-- Looking a key up after entry-wise normalization. -/
theorem lookupJ_normalizeEntries (key : String) (b : Bool) (es : List (String × Json)) :
    lookupJ key (normalizeEntries b es) =
      (lookupJ key es).map (normalizeEntryValue b key) := by
  induction es with
  | nil => rfl
  | cons p rest ih =>
    obtain ⟨k, v⟩ := p
    by_cases h : k = key
    · subst h; simp [normalizeEntries, lookupJ]
    · simp [normalizeEntries, lookupJ, h, ih]

/-- Normalization does not change a mark's `type`. -/
theorem markTypeIs_normalizeNode (t : String) (m : Json) :
    markTypeIs t (normalizeNode m) = markTypeIs t m := by
  cases m with
  | obj es =>
    simp only [normalizeNode, markTypeIs, lookupJ_normalizeEntries]
    cases h : lookupJ "type" es with
    | none => rfl
    | some v => cases v <;> simp [normalizeEntryValue] <;> split <;> rfl
  | _ => rfl

/-- Normalization of a list does not change which mark types occur. -/
theorem hasMarkType_map_normalizeNode (t : String) (ms : List Json) :
    hasMarkType t (ms.map normalizeNode) = hasMarkType t ms := by
  induction ms with
  | nil => rfl
  | cons m ms ih =>
    simp [hasMarkType, List.any_cons, markTypeIs_normalizeNode] at ih ⊢
    rw [ih]

/-- A `code`-typed mark is not a `strong`-typed mark. -/
theorem markTypeIs_code_not_strong (m : Json) (h : markTypeIs "code" m = true) :
    markTypeIs "strong" m = false := by
  cases m with
  | obj es =>
    simp only [markTypeIs] at h ⊢
    cases hl : lookupJ "type" es with
    | none => rfl
    | some v =>
      rw [hl] at h
      cases v <;> simp_all
  | _ => simp [markTypeIs] at h

/-- After filtering a combined-marks list down to its `code` marks, no
`strong` mark remains. -/
theorem hasMarkType_strong_filtered (ms : List Json) :
    hasMarkType "strong" (normalizeMarksFiltered ms) = false := by
  rw [normalizeMarksFiltered_eq, hasMarkType_map_normalizeNode]
  simp only [hasMarkType, List.any_eq_false]
  intro m hm
  have hc := (List.mem_filter.mp hm).2
  simp [markTypeIs_code_not_strong m hc]

/-- One pass of entry-wise normalization extinguishes the combined-marks
guard on the resulting dict. -/
theorem needsFilter_normalizeEntries (es : List (String × Json)) :
    needsFilter (normalizeEntries (needsFilter es) es) = false := by
  cases hb : needsFilter es with
  | true =>
    simp only [needsFilter, lookupJ_normalizeEntries]
    cases hl : lookupJ "marks" es with
    | none => simp [needsFilter, hl] at hb
    | some v =>
      cases v with
      | arr ms =>
        simp only [needsFilter, hl] at hb
        simp [normalizeEntryValue, hasMarkType_strong_filtered]
      | null => simp [needsFilter, hl] at hb
      | bool b2 => simp [needsFilter, hl] at hb
      | num n => simp [needsFilter, hl] at hb
      | str s => simp [needsFilter, hl] at hb
      | obj es2 => simp [needsFilter, hl] at hb
  | false =>
    simp only [needsFilter, lookupJ_normalizeEntries]
    cases hl : lookupJ "marks" es with
    | none => rfl
    | some v =>
      cases v with
      | arr ms =>
        simp only [needsFilter, hl] at hb
        simp [normalizeEntryValue, normalizeList_eq_map, hasMarkType_map_normalizeNode, hb]
      | null => rfl
      | bool b2 => simp [normalizeEntryValue]
      | num n => simp [normalizeEntryValue]
      | str s => simp [normalizeEntryValue]
      | obj es2 => simp [normalizeEntryValue]

/-- Map congruence specialized to membership-wise equal functions. -/
theorem listMapCongr {α β : Type} {f g : α → β} :
    ∀ {l : List α}, (∀ a ∈ l, f a = g a) → l.map f = l.map g := by
  intro l
  induction l with
  | nil => intro _; rfl
  | cons a l ih =>
    intro h
    simp only [List.map_cons, h a (List.mem_cons_self a l),
      ih fun a ha => h a (List.mem_cons_of_mem _ ha)]

/-- Size bound for a dict value, towards the well-founded induction. -/
theorem sizeOf_lt_of_entry_mem {k : String} {v : Json} {es : List (String × Json)}
    (h : (k, v) ∈ es) : sizeOf v < sizeOf (Json.obj es) := by
  have h1 := List.sizeOf_lt_of_mem h
  simp only [Json.obj.sizeOf_spec, Prod.mk.sizeOf_spec] at h1 ⊢
  omega

/-- Size bound for an item of a list-valued dict entry. -/
theorem sizeOf_lt_of_marks_mem {m : Json} {ms : List Json} {k : String}
    {es : List (String × Json)} (hkv : (k, Json.arr ms) ∈ es) (hm : m ∈ ms) :
    sizeOf m < sizeOf (Json.obj es) := by
  have h1 := List.sizeOf_lt_of_mem hm
  have h2 := List.sizeOf_lt_of_mem hkv
  simp only [Json.obj.sizeOf_spec, Json.arr.sizeOf_spec, Prod.mk.sizeOf_spec] at h1 h2 ⊢
  omega

/-- `normalize_node` is idempotent on every tree. -/
theorem normalizeNode_idem : ∀ x : Json, normalizeNode (normalizeNode x) = normalizeNode x := by
  suffices H : ∀ (n : Nat) (x : Json), sizeOf x ≤ n →
      normalizeNode (normalizeNode x) = normalizeNode x from
    fun x => H (sizeOf x) x le_rfl
  intro n
  induction n with
  | zero => intro x hx; exfalso; cases x <;> simp at hx
  | succ n ih =>
    intro x hx
    cases x with
    | null => rfl
    | bool b => rfl
    | num m => rfl
    | str s => rfl
    | arr xs =>
      simp only [normalizeNode, normalizeList_eq_map, List.map_map]
      congr 1
      apply listMapCongr
      intro a ha
      have hs := List.sizeOf_lt_of_mem ha
      simp only [Json.arr.sizeOf_spec] at hx
      exact ih a (by omega)
    | obj es =>
      simp only [normalizeNode]
      rw [needsFilter_normalizeEntries]
      congr 1
      rw [normalizeEntries_eq_map false, normalizeEntries_eq_map (needsFilter es),
        List.map_map]
      apply listMapCongr
      intro p hp
      obtain ⟨k, v⟩ := p
      have hvs : sizeOf v < sizeOf (Json.obj es) := sizeOf_lt_of_entry_mem hp
      simp only [Function.comp_apply]
      refine Prod.ext rfl ?_
      show normalizeEntryValue false k (normalizeEntryValue (needsFilter es) k v) =
        normalizeEntryValue (needsFilter es) k v
      rw [normalizeEntryValue_eq_node false k _ (by simp)]
      cases hg : needsFilter es && (k == "marks") with
      | false =>
        rw [normalizeEntryValue_eq_node _ _ _ hg]
        exact ih v (by omega)
      | true =>
        cases v with
        | arr ms =>
          simp only [normalizeEntryValue, hg, if_true]
          show Json.arr (normalizeList (normalizeMarksFiltered ms)) = _
          rw [normalizeList_eq_map, normalizeMarksFiltered_eq, List.map_map]
          congr 1
          apply listMapCongr
          intro m hm
          have hms : m ∈ ms := (List.mem_filter.mp hm).1
          have hs := sizeOf_lt_of_marks_mem hp hms
          simp only [Function.comp_apply]
          exact ih m (by omega)
        | obj es2 =>
          show normalizeNode (normalizeNode (.obj es2)) = normalizeNode (.obj es2)
          exact ih _ (by omega)
        | null => rfl
        | bool b2 => rfl
        | num m => rfl
        | str s => rfl

/-- C1: mark normalization is idempotent — for every rich-text (ADF) tree
`adf` (well-formed in the sense that mark lists hold only objects, which
every ADF tree satisfies), `_normalize_adf_marks (_normalize_adf_marks
adf) = _normalize_adf_marks adf`. -/
theorem C1_normalize_adf_marks_idem (adf : List (String × Json))
    (h : marksWF (Json.obj adf) = true) :
    normalizeAdfMarks (normalizeAdfMarks adf) = normalizeAdfMarks adf := by
  have hidem := normalizeNode_idem (Json.obj adf)
  simp only [normalizeNode] at hidem
  injection hidem

/-- Witness for C1 at the concrete document `adfEx1`. -/
theorem C1_witness :
    marksWF (Json.obj adfEx1) = true ∧
      normalizeAdfMarks (normalizeAdfMarks adfEx1) = normalizeAdfMarks adfEx1 :=
  ⟨by decide, C1_normalize_adf_marks_idem adfEx1 (by decide)⟩

/-- Unfolding `noComboList` to `List.all`. -/
theorem noComboList_eq_all (xs : List Json) : noComboList xs = xs.all noCombo := by
  induction xs with
  | nil => rfl
  | cons x xs ih => simp [noComboList, ih]

/-- Unfolding `noComboEntries` to `List.all`. -/
theorem noComboEntries_eq_all (es : List (String × Json)) :
    noComboEntries es = es.all fun p => noCombo p.2 := by
  induction es with
  | nil => rfl
  | cons p rest ih => obtain ⟨k, v⟩ := p; simp [noComboEntries, ih]

/-- Either a dict value is normalized by the plain recursive visit, or it
is the `marks` list of a combined-marks node, in which case it is first
filtered down to its `code` marks. -/
theorem normalizeEntryValue_cases (b : Bool) (k : String) (v : Json) :
    normalizeEntryValue b k v = normalizeNode v ∨
      ∃ ms, v = .arr ms ∧ (b && (k == "marks")) = true ∧
        normalizeEntryValue b k v =
          normalizeNode (.arr (ms.filter (markTypeIs "code"))) := by
  cases v with
  | arr ms =>
    cases hg : b && (k == "marks") with
    | false => exact .inl (normalizeEntryValue_eq_node _ _ _ hg)
    | true =>
      refine .inr ⟨ms, rfl, rfl, ?_⟩
      simp only [normalizeEntryValue, hg, if_true, normalizeNode,
        normalizeList_eq_map, normalizeMarksFiltered_eq]
  | obj es => exact .inl rfl
  | null => exact .inl rfl
  | bool b2 => exact .inl rfl
  | num m => exact .inl rfl
  | str s => exact .inl rfl

/-- Filtering does not increase the size of a list. -/
theorem sizeOf_filter_le (p : Json → Bool) (l : List Json) :
    sizeOf (l.filter p) ≤ sizeOf l := by
  induction l with
  | nil => simp
  | cons a l ih =>
    rw [List.filter_cons]
    by_cases h : p a = true <;> simp [h] <;> omega

/-- After one pass of `normalize_node`, no node of the result carries
both a `code` and a `strong` mark. -/
theorem noCombo_normalizeNode : ∀ x : Json, noCombo (normalizeNode x) = true := by
  suffices H : ∀ (n : Nat) (x : Json), sizeOf x ≤ n → noCombo (normalizeNode x) = true from
    fun x => H (sizeOf x) x le_rfl
  intro n
  induction n with
  | zero => intro x hx; exfalso; cases x <;> simp at hx
  | succ n ih =>
    intro x hx
    cases x with
    | null => rfl
    | bool b => rfl
    | num m => rfl
    | str s => rfl
    | arr xs =>
      simp only [normalizeNode, noCombo, noComboList_eq_all, normalizeList_eq_map,
        List.all_map, List.all_eq_true]
      intro a ha
      have hs := List.sizeOf_lt_of_mem ha
      simp only [Json.arr.sizeOf_spec] at hx
      exact ih a (by omega)
    | obj es =>
      simp only [normalizeNode, noCombo]
      rw [needsFilter_normalizeEntries]
      simp only [Bool.not_false, Bool.true_and, noComboEntries_eq_all,
        normalizeEntries_eq_map, List.all_map, List.all_eq_true]
      intro p hp
      obtain ⟨k, v⟩ := p
      simp only [Function.comp_apply]
      rcases normalizeEntryValue_cases (needsFilter es) k v with hc | ⟨ms, hv, _, hc⟩
      · rw [hc]
        have hvs := sizeOf_lt_of_entry_mem hp
        exact ih v (by omega)
      · rw [hc]
        subst hv
        have hms := List.sizeOf_lt_of_mem hp
        have hfl := sizeOf_filter_le (markTypeIs "code") ms
        simp only [Prod.mk.sizeOf_spec, Json.arr.sizeOf_spec] at hms
        refine ih _ ?_
        simp only [Json.arr.sizeOf_spec, Json.obj.sizeOf_spec] at hx ⊢
        omega

/-- C2 counterexample: on `nodeEx2` (marks `[code, strong, em]`) the
normalized mark list is `[code]`, not the `[code, em]` the claim
predicts — the `em` mark is dropped too, refuting "marks of any other
type are kept unchanged". -/
theorem C2_counterexample :
    lookupJ "marks" (normalizeAdfMarks nodeEx2) =
      some (.arr [.obj [("type", .str "code")]]) ∧
    lookupJ "marks" (normalizeAdfMarks nodeEx2) ≠
      some (.arr claimPredictedMarksEx2) := by
  refine ⟨rfl, ?_⟩
  intro h
  rw [show lookupJ "marks" (normalizeAdfMarks nodeEx2) =
    some (.arr [.obj [("type", .str "code")]]) from rfl] at h
  injection h with h1
  injection h1 with h2
  simp [claimPredictedMarksEx2] at h2

/-- C2 (amended): (a) the output of mark normalization has no node
carrying both a `code` and a `strong` mark; (b) for a node whose mark
list carries both, the output mark list is the input's `code`-typed
marks, each recursively normalized — every mark whose type is not
`code` (including marks of types other than `strong`) is dropped. -/
theorem C2_amended :
    (∀ x : Json, marksWF x = true → noCombo (normalizeNode x) = true) ∧
    (∀ (es : List (String × Json)) (ms : List Json),
      lookupJ "marks" es = some (.arr ms) →
      hasMarkType "code" ms = true → hasMarkType "strong" ms = true →
      lookupJ "marks" (normalizeAdfMarks es) =
        some (.arr ((ms.filter (markTypeIs "code")).map normalizeNode))) := by
  constructor
  · exact fun x _ => noCombo_normalizeNode x
  · intro es ms hl hc hs
    have hb : needsFilter es = true := by simp [needsFilter, hl, hc, hs]
    show lookupJ "marks" (normalizeEntries (needsFilter es) es) = _
    rw [hb, lookupJ_normalizeEntries, hl]
    simp [normalizeEntryValue, normalizeMarksFiltered_eq]

/-- Witness for C2 (amended) at `nodeEx2`. -/
theorem C2_witness :
    noCombo (normalizeNode (Json.obj nodeEx2)) = true ∧
      lookupJ "marks" (normalizeAdfMarks nodeEx2) =
        some (.arr ((marksListEx2.filter (markTypeIs "code")).map normalizeNode)) :=
  ⟨C2_amended.1 (Json.obj nodeEx2) (by decide),
   C2_amended.2 nodeEx2 marksListEx2 rfl rfl rfl⟩

/-- A successful `startswith` exposes the pattern as a prefix. -/
theorem startsWithS_decomp : ∀ (pat s : Str), startsWithS pat s = true →
    s = pat ++ s.drop pat.length := by
  intro pat
  induction pat with
  | nil => intro s _; simp
  | cons p ps ih =>
    intro s h
    cases s with
    | nil => simp [startsWithS] at h
    | cons c cs =>
      simp only [startsWithS, Bool.and_eq_true, decide_eq_true_eq] at h
      obtain ⟨h1, h2⟩ := h
      subst h1
      simpa using ih cs h2

/-- Every element of `nlSplits s` is a genuine `\s*\n` reading of `s`. -/
theorem nlSplits_sound : ∀ (s w r : Str), (w, r) ∈ nlSplits s →
    s = w ++ '\n' :: r ∧ AllWsP w := by
  intro s
  induction s with
  | nil => intro w r h; simp [nlSplits] at h
  | cons c cs ih =>
    intro w r h
    simp only [nlSplits] at h
    rcases List.mem_append.mp h with h1 | h2
    · by_cases hc : c = '\n'
      · simp only [hc, if_true, List.mem_singleton, Prod.mk.injEq] at h1
        obtain ⟨hw, hr⟩ := h1
        subst hw; subst hr; subst hc
        exact ⟨rfl, by intro d hd; simp at hd⟩
      · simp [hc] at h1
    · by_cases hw : isWs c = true
      · simp only [hw, if_true, List.mem_map] at h2
        obtain ⟨⟨w0, r0⟩, hmem, heq⟩ := h2
        obtain ⟨hw0, hr0⟩ := Prod.mk.injEq .. ▸ heq
        obtain ⟨hcs, hall⟩ := ih w0 r0 hmem
        subst hr0
        refine ⟨?_, ?_⟩
        · rw [← hw0, hcs]; rfl
        · intro d hd
          rw [← hw0] at hd
          rcases List.mem_cons.mp hd with h | h
          · subst h; exact hw
          · exact hall d h
      · simp [hw] at h2

/-- A successful `sepHere` exposes the full `\n---\s*\n` separator. -/
theorem sepHere_sound (s : Str) (h : sepHere s = true) :
    ∃ w rest, s = '\n' :: '-' :: '-' :: '-' :: (w ++ '\n' :: rest) ∧ AllWsP w := by
  unfold sepHere at h
  rw [Bool.and_eq_true] at h
  obtain ⟨h1, h2⟩ := h
  have hd : s = '\n' :: '-' :: '-' :: '-' :: s.drop 4 := by
    simpa using startsWithS_decomp _ _ h1
  cases hnl : nlSplits (s.drop 4) with
  | nil => rw [hnl] at h2; simp at h2
  | cons p ps =>
    obtain ⟨w, r⟩ := p
    have hs := nlSplits_sound _ w r (by rw [hnl]; exact List.mem_cons_self _ _)
    refine ⟨w, r, ?_, hs.2⟩
    conv_lhs => rw [hd]
    rw [hs.1]

/-- A successful lazy body search exposes body and separator. -/
theorem lazyBodyTo_sound : ∀ (s B : Str), lazyBodyTo s = some B →
    ∃ rest, s = B ++ rest ∧ sepHere rest = true := by
  intro s
  induction s with
  | nil => intro B h; simp [lazyBodyTo] at h
  | cons c cs ih =>
    intro B h
    unfold lazyBodyTo at h
    by_cases hsep : sepHere (c :: cs) = true
    · simp only [hsep, if_true, Option.some.injEq] at h
      exact ⟨c :: cs, by rw [← h]; rfl, hsep⟩
    · cases hB0 : lazyBodyTo cs with
      | none => simp [hsep, hB0] at h
      | some B0 =>
        have h2 : c :: B0 = B := by simpa [hsep, hB0, Option.map] using h
        obtain ⟨rest, hcs, hsep2⟩ := ih B0 hB0
        exact ⟨rest, by rw [← h2, hcs]; rfl, hsep2⟩

/-- A successful `findSome?` comes from some list element. -/
theorem findSomeMem {α β : Type} (f : α → Option β) :
    ∀ (l : List α) (b : β), l.findSome? f = some b → ∃ a ∈ l, f a = some b := by
  intro l
  induction l with
  | nil => intro b h; simp [List.findSome?] at h
  | cons a l ih =>
    intro b h
    cases hf : f a with
    | some c =>
      rw [List.findSome?_cons, hf] at h
      simp at h
      exact ⟨a, List.mem_cons_self _ _, by rw [hf, h]⟩
    | none =>
      rw [List.findSome?_cons, hf] at h
      obtain ⟨a2, hm, hfa⟩ := ih b h
      exact ⟨a2, List.mem_cons_of_mem _ hm, hfa⟩

/-- A successful strict front-matter match exposes the full
decomposition of the document. -/
theorem fmStrictMatch_sound (md B : Str) (h : fmStrictMatch md = some B) :
    ∃ w w2 rest, StrictShape md w B w2 rest := by
  unfold fmStrictMatch at h
  by_cases hs : startsWithS ['-', '-', '-'] md = true
  · simp only [hs, if_true] at h
    obtain ⟨p, hmem, hlazy⟩ := findSomeMem _ _ _ h
    obtain ⟨w, body0⟩ := p
    rw [List.mem_reverse] at hmem
    obtain ⟨hdrop, hallw⟩ := nlSplits_sound _ _ _ hmem
    have hlazy2 : lazyBodyTo body0 = some B := hlazy
    obtain ⟨rest, hbody, hsep⟩ := lazyBodyTo_sound _ _ hlazy2
    obtain ⟨w2, rest2, hrest, hallw2⟩ := sepHere_sound _ hsep
    refine ⟨w, w2, rest2, ?_, hallw, hallw2⟩
    have hmd : md = '-' :: '-' :: '-' :: md.drop 3 := by
      simpa using startsWithS_decomp _ _ hs
    conv_lhs => rw [hmd]
    rw [hdrop, hbody, hrest]
  · simp [hs] at h

/-- C5 (amended): a document whose stripped text starts with `---` fails
with a `FormatError` exactly when the strict pattern has no match; a
document that does not start with `---` fails only when it contains no
legacy `\n---\s*\n` separator — otherwise (third conjunct) the text
before the first separator is returned, i.e. the legacy branch `succeeds`
on such documents, contrary to the claim as stated. -/
theorem C5_amended :
    (∀ md, startsWithS ['-', '-', '-'] (lstrip md) = true →
      (∀ w B w2 rest, ¬StrictShape md w B w2 rest) →
      extractFrontMatterBlock md = .error .noYamlTerminator) ∧
    (∀ md, startsWithS ['-', '-', '-'] (lstrip md) = false →
      (∀ A w rest, ¬LegacyShape md A w rest) →
      extractFrontMatterBlock md = .error .noLegacyTerminator) ∧
    (∀ md A, startsWithS ['-', '-', '-'] (lstrip md) = false →
      lazyBodyTo md = some A → extractFrontMatterBlock md = .ok A) := by
  refine ⟨?_, ?_, ?_⟩
  · intro md hstart hno
    unfold extractFrontMatterBlock
    rw [hstart]
    cases hm : fmStrictMatch md with
    | some B =>
      obtain ⟨w, w2, rest, hsh⟩ := fmStrictMatch_sound md B hm
      exact absurd hsh (hno w B w2 rest)
    | none => rfl
  · intro md hstart hno
    unfold extractFrontMatterBlock
    rw [hstart]
    cases hm : lazyBodyTo md with
    | some A =>
      obtain ⟨rest, hmd, hsep⟩ := lazyBodyTo_sound _ _ hm
      obtain ⟨w, rest2, hrest, hallw⟩ := sepHere_sound _ hsep
      exact absurd ⟨by rw [hmd, hrest], hallw⟩ (hno A w rest2)
    | none => rfl
  · intro md A hstart hm
    unfold extractFrontMatterBlock
    rw [hstart, hm]
    rfl

/-- C5 counterexample: `docLegacy` does not start with `---`, yet
`_extract_front_matter_block` succeeds on it (legacy branch), so
"every document text that does not start with a `---` line … fails
with a FormatError" is false on the code. -/
theorem C5_counterexample :
    startsWithS ['-', '-', '-'] (lstrip docLegacy) = false ∧
      extractFrontMatterBlock docLegacy = .ok ("a: b".toList) :=
  ⟨rfl, rfl⟩

/-- Witness for C5 (amended) at concrete documents: `---\nX` (opened but
never closed) fails, `abc` (no separator at all) fails, and the legacy
document succeeds. -/
theorem C5_witness :
    extractFrontMatterBlock ("---\nX").toList = .error .noYamlTerminator ∧
      extractFrontMatterBlock ("abc").toList = .error .noLegacyTerminator ∧
      extractFrontMatterBlock docLegacy = .ok ("a: b".toList) := by
  refine ⟨?_, ?_, ?_⟩
  · refine C5_amended.1 _ rfl ?_
    intro w B w2 rest h
    have hl := congrArg List.length h.1
    simp [List.length_append] at hl
    omega
  · refine C5_amended.2.1 _ rfl ?_
    intro A w rest h
    have hl := congrArg List.length h.1
    simp [List.length_append] at hl
    omega
  · exact C5_amended.2.2 docLegacy _ rfl rfl

/-- The sync-path validation accepts a record exactly when the story has
both identifiers and the subtask, if remotely identified, points at the
story. -/
theorem validateSyncMetas_ok_iff (s : StoryMeta) (t : SubtaskMeta) :
    validateSyncMetas s t = .ok () ↔
      s.jiraKey ≠ [] ∧ s.parentKey ≠ [] ∧
        (t.jiraKey = [] ∨ t.parentKey = s.jiraKey) := by
  unfold validateSyncMetas
  split_ifs with h1 h2 h3 <;> simp_all [List.isEmpty_iff]
  tauto

/-- C3 (amended): in the sync-path parser a two-entity document whose
subtask carries a remote identifier different from the story's
identifier fails to parse (first conjunct), and the subtask/story
mismatch error is never raised when the subtask identifier is empty or
the parent matches (second conjunct); the create-path parser performs no
such validation — it only requires a non-empty story parent key, and a
mismatched document parses successfully there (third conjunct). -/
theorem C3_amended :
    (∀ (extractAdf : Str → Except ParseErr (AdfMap × AdfMap)) (md : Str)
        (s : StoryMeta) (t : SubtaskMeta),
      buildMetas md = .ok (s, t) → t.jiraKey ≠ [] → t.parentKey ≠ s.jiraKey →
      ∃ e, parseComboRecordSync extractAdf md = .error e) ∧
    (∀ (s : StoryMeta) (t : SubtaskMeta),
      (t.jiraKey = [] ∨ t.parentKey = s.jiraKey) →
      ∀ k, validateSyncMetas s t ≠ .error (.subtaskParentMismatch k)) ∧
    (∀ (extractAdf : Str → Except ParseErr (AdfMap × AdfMap))
        (extractSummary : Str → Str → Str) (md : Str) (s : StoryMeta)
        (t : SubtaskMeta) (sa ta : AdfMap),
      buildMetas md = .ok (s, t) → s.parentKey ≠ [] →
      extractAdf md = .ok (sa, ta) →
      parseComboRecordCreate extractAdf extractSummary md =
        .ok ⟨s, t, extractSummary md "story".toList,
             extractSummary md "subtask".toList, sa, ta⟩) := by
  refine ⟨?_, ?_, ?_⟩
  · intro extractAdf md s t hb hk hp
    cases hv : validateSyncMetas s t with
    | error e => exact ⟨e, by simp only [parseComboRecordSync, hb, hv]⟩
    | ok u =>
      exfalso
      have := (validateSyncMetas_ok_iff s t).mp (by cases u; exact hv)
      tauto
  · intro s t hor k
    unfold validateSyncMetas
    split_ifs with h1 h2 h3 <;> simp_all [List.isEmpty_iff]
  · intro extractAdf extractSummary md s t sa ta hb hpk hadf
    have hv : validateCreateMetas s = .ok () := by
      unfold validateCreateMetas
      rw [if_neg (by simp [List.isEmpty_iff, hpk])]
    simp only [parseComboRecordCreate, hb, hv, hadf]

/-- C3 counterexample: `docMismatch` has a subtask with a non-empty
remote identifier whose parent reference differs from the story's
identifier, yet the create-path `_parse_combo_record` parses it
successfully — so "parsing the record fails with a ValidationError" is
false for the cited create-path parser. -/
theorem C3_counterexample :
    subtaskMismatch.jiraKey ≠ [] ∧
      subtaskMismatch.parentKey ≠ storyMismatch.jiraKey ∧
      buildMetas docMismatch = .ok (storyMismatch, subtaskMismatch) ∧
      parseComboRecordCreate (fun _ => .ok ([], [])) (fun _ _ => []) docMismatch =
        .ok ⟨storyMismatch, subtaskMismatch, [], [], [], []⟩ :=
  ⟨by decide, by decide, rfl, rfl⟩

/-- Witness for C3 (amended) at `docMismatch`: the sync-path parse
fails. -/
theorem C3_witness :
    ∃ e, parseComboRecordSync (fun _ => .ok ([], [])) docMismatch = .error e :=
  C3_amended.1 _ docMismatch storyMismatch subtaskMismatch rfl (by decide) (by decide)

/-- A successful substring search exposes the prefix before the match. -/
theorem subFindBefore_sound (pat : Str) :
    ∀ (s b : Str), subFindBefore pat s = some b → ∃ rest, s = b ++ rest := by
  intro s
  induction s with
  | nil =>
    intro b h
    unfold subFindBefore at h
    by_cases hp : pat = []
    · simp only [hp, if_true, Option.some.injEq] at h
      exact ⟨[], by rw [← h]; rfl⟩
    · simp [hp] at h
  | cons c cs ih =>
    intro b h
    unfold subFindBefore at h
    by_cases hs : startsWithS pat (c :: cs) = true
    · simp only [hs, if_true, Option.some.injEq] at h
      exact ⟨c :: cs, by rw [← h]; rfl⟩
    · cases hb0 : subFindBefore pat cs with
      | none => simp [hs, hb0] at h
      | some b0 =>
        have h2 : c :: b0 = b := by simpa [hs, hb0, Option.map] using h
        obtain ⟨rest, hcs⟩ := ih b0 hb0
        exact ⟨rest, by rw [← h2, hcs]; rfl⟩

/-- Right-stripping yields a prefix of the original string. -/
theorem rstrip_isPre (b : Str) : rstrip b <+: b := by
  unfold rstrip
  conv_rhs => rw [← List.reverse_reverse b]
  exact List.reverse_prefix.mpr (List.dropWhile_suffix _)

/-- A one-character `startswith` transfers from a nonempty prefix to the
whole string. -/
theorem startsWithS_single_of_isPre {q : Char} {w v : Str} (h : w <+: v)
    (hw : startsWithS [q] w = true) : startsWithS [q] v = true := by
  obtain ⟨t, rfl⟩ := h
  cases w with
  | nil => simp [startsWithS] at hw
  | cons c cs => simp_all [startsWithS]

/-- The dotenv dequote is the identity on values that do not start with a
quote character. -/
theorem pyDequoteOnce_eq_self {w : Str} (h1 : startsWithS ['"'] w = false)
    (h2 : startsWithS ['\''] w = false) : pyDequoteOnce w = w := by
  unfold pyDequoteOnce
  rw [h1, h2]
  simp

/-- C9 (amended): for an unquoted value containing an inline ` #`
comment, the sync/create-family loader stores the text before the
comment with trailing whitespace removed, while the pull-family loader
stores the value verbatim, comment included (first conjunct); double- or
single-quoted values keep any `#` they contain under both loaders
(second and third conjuncts). -/
theorem C9_amended :
    (∀ (v b : Str), v ≠ [] → startsWithS ['"'] v = false →
      startsWithS ['\''] v = false → subFindBefore [' ', '#'] v = some b →
      dotenvValueSync v = rstrip b ∧ dotenvValuePull v = v) ∧
    (∀ body : Str, dotenvValueSync ('"' :: body ++ ['"']) = body ∧
      dotenvValuePull ('"' :: body ++ ['"']) = body) ∧
    (∀ body : Str, dotenvValueSync ('\'' :: body ++ ['\'']) = body ∧
      dotenvValuePull ('\'' :: body ++ ['\'']) = body) := by
  refine ⟨?_, ?_, ?_⟩
  · intro v b hne hq1 hq2 hb
    have hpre : rstrip b <+: v := by
      obtain ⟨rest, hv⟩ := subFindBefore_sound _ _ _ hb
      exact (rstrip_isPre b).trans ⟨rest, hv.symm⟩
    have hr1 : startsWithS ['"'] (rstrip b) = false := by
      cases h : startsWithS ['"'] (rstrip b) with
      | false => rfl
      | true => rw [startsWithS_single_of_isPre hpre h] at hq1; cases hq1
    have hr2 : startsWithS ['\''] (rstrip b) = false := by
      cases h : startsWithS ['\''] (rstrip b) with
      | false => rfl
      | true => rw [startsWithS_single_of_isPre hpre h] at hq2; cases hq2
    constructor
    · unfold dotenvValueSync
      rw [if_pos (by simp [hasSubstr, hb, hq1, hq2, List.isEmpty_iff, hne])]
      rw [hb]
      exact pyDequoteOnce_eq_self hr1 hr2
    · exact pyDequoteOnce_eq_self hq1 hq2
  · intro body
    have hq : startsWithS ['"'] ('"' :: body ++ ['"']) = true := by
      simp [startsWithS]
    have he : endsWithS ['"'] ('"' :: body ++ ['"']) = true := by
      simp [endsWithS, startsWithS, List.reverse_append]
    have hdq : pyDequoteOnce ('"' :: body ++ ['"']) = body := by
      unfold pyDequoteOnce
      rw [hq, he]
      simp [List.dropLast_concat]
    refine ⟨?_, hdq⟩
    unfold dotenvValueSync
    rw [hq]
    simpa using hdq
  · intro body
    have hq : startsWithS ['\''] ('\'' :: body ++ ['\'']) = true := by
      simp [startsWithS]
    have he : endsWithS ['\''] ('\'' :: body ++ ['\'']) = true := by
      simp [endsWithS, startsWithS, List.reverse_append]
    have hdq : pyDequoteOnce ('\'' :: body ++ ['\'']) = body := by
      unfold pyDequoteOnce
      rw [hq, he]
      simp [List.dropLast_concat]
    refine ⟨?_, hdq⟩
    unfold dotenvValueSync
    rw [hq]
    simpa using hdq

/-- C9 counterexample: on the line `KEY=abc # note` the pull-family
loader (`pull_from_jira.py`) stores the full text `abc # note`, not the
comment-stripped `abc` the claim prescribes for every loader; the
sync-family loader does store `abc`. -/
theorem C9_counterexample :
    loadDotenvPull ("KEY=abc # note\n").toList false [] =
      [("KEY".toList, "abc # note".toList)] ∧
      ("abc # note".toList : Str) ≠ "abc".toList ∧
      loadDotenvSync ("KEY=abc # note\n").toList false [] =
        [("KEY".toList, "abc".toList)] :=
  ⟨rfl, by decide, rfl⟩

/-- Witness for C9 (amended) at the value `abc # note`. -/
theorem C9_witness :
    dotenvValueSync ("abc # note").toList = ("abc").toList ∧
      dotenvValuePull ("abc # note").toList = ("abc # note").toList :=
  C9_amended.1 ("abc # note").toList ("abc").toList (by decide) rfl rfl rfl

/-- Reading a key after a Python dict assignment. -/
theorem lookupS_setKV (k k2 v2 : Str) :
    ∀ env : EnvMap, lookupS k (setKV env k2 v2) =
      if k2 = k then some v2 else lookupS k env := by
  intro env
  induction env with
  | nil => simp [setKV, lookupS]
  | cons p rest ih =>
    obtain ⟨ka, va⟩ := p
    unfold setKV
    by_cases hak : ka = k2
    · subst hak
      rw [if_pos rfl]
      by_cases hk : ka = k <;> simp [hk, lookupS]
    · rw [if_neg hak]
      have hcons : ∀ l : EnvMap,
          lookupS k ((ka, va) :: l) = if ka = k then some va else lookupS k l :=
        fun l => rfl
      rw [hcons, hcons, ih]
      by_cases hk : ka = k <;> by_cases h2 : k2 = k
      · exact absurd (hk.trans h2.symm) hak
      · simp [hk, h2]
      · simp [hk, h2]
      · simp [hk, h2]

/-- With `override = False`, one store step never changes a key that is
already present. -/
theorem dotenvStore_preserve (pl : Option (Str × Str)) (env : EnvMap)
    (k v : Str) (h : lookupS k env = some v) :
    lookupS k (dotenvStore false env pl) = some v := by
  cases pl with
  | none => exact h
  | some p =>
    obtain ⟨k2, v2⟩ := p
    unfold dotenvStore
    cases he : (lookupS k2 env).isNone with
    | false => simpa [he] using h
    | true =>
      simp only [Bool.false_or, he, if_true]
      rw [lookupS_setKV]
      by_cases h2 : k2 = k
      · subst h2; rw [h] at he; simp at he
      · rw [if_neg h2]; exact h

/-- Folding the store steps over any line list preserves present keys. -/
theorem dotenvFold_preserve (lineFn : Str → Option (Str × Str)) :
    ∀ (lines : List Str) (env : EnvMap) (k v : Str), lookupS k env = some v →
      lookupS k (lines.foldl (fun e l => dotenvStore false e (lineFn l)) env) =
        some v := by
  intro lines
  induction lines with
  | nil => intro env k v h; exact h
  | cons l ls ih =>
    intro env k v h
    exact ih _ k v (dotenvStore_preserve _ _ _ _ h)

/-- C10: with `override` left at its default `False`, both `load_dotenv`
variants leave every environment variable that was present before the
call unchanged (first conjunct); consequently only keys absent from the
initial environment can be assigned (second and third conjuncts). -/
theorem C10_dotenv_no_override :
    (∀ (content : Str) (env0 : EnvMap) (k v : Str), lookupS k env0 = some v →
      lookupS k (loadDotenvSync content false env0) = some v ∧
        lookupS k (loadDotenvPull content false env0) = some v) ∧
    (∀ (content : Str) (env0 : EnvMap) (k : Str),
      lookupS k (loadDotenvSync content false env0) ≠ lookupS k env0 →
      lookupS k env0 = none) ∧
    (∀ (content : Str) (env0 : EnvMap) (k : Str),
      lookupS k (loadDotenvPull content false env0) ≠ lookupS k env0 →
      lookupS k env0 = none) := by
  have hmain : ∀ (content : Str) (env0 : EnvMap) (k v : Str),
      lookupS k env0 = some v →
      lookupS k (loadDotenvSync content false env0) = some v ∧
        lookupS k (loadDotenvPull content false env0) = some v := by
    intro content env0 k v h
    exact ⟨dotenvFold_preserve dotenvLineSync _ _ _ _ h,
      dotenvFold_preserve dotenvLinePull _ _ _ _ h⟩
  refine ⟨hmain, ?_, ?_⟩
  · intro content env0 k h
    cases hl : lookupS k env0 with
    | none => rfl
    | some v => exact absurd (((hmain content env0 k v hl).1).trans hl.symm) h
  · intro content env0 k h
    cases hl : lookupS k env0 with
    | none => rfl
    | some v => exact absurd (((hmain content env0 k v hl).2).trans hl.symm) h

/-- Witness for C10: a pre-set `JIRA_EMAIL` survives a file that tries to
reassign it. -/
theorem C10_witness :
    lookupS ("JIRA_EMAIL").toList
        (loadDotenvSync ("JIRA_EMAIL=b\nNEW=z\n").toList false
          [(("JIRA_EMAIL").toList, ("a").toList)]) = some ("a").toList ∧
      lookupS ("JIRA_EMAIL").toList
        (loadDotenvPull ("JIRA_EMAIL=b\nNEW=z\n").toList false
          [(("JIRA_EMAIL").toList, ("a").toList)]) = some ("a").toList :=
  C10_dotenv_no_override.1 ("JIRA_EMAIL=b\nNEW=z\n").toList
    [(("JIRA_EMAIL").toList, ("a").toList)] ("JIRA_EMAIL").toList ("a").toList rfl

/-- C6 (amended): when the desired label is non-empty and already equals
the current remote status, `_maybe_transition` performs exactly one
remote call — the read fetching the current status — and neither lists
nor applies any transition; when the desired label is empty (after
stripping) it performs no remote calls at all. -/
theorem C6_amended :
    (∀ (o : TransOracle) (key desiredStatus : String) (dryRun : Bool),
      stripString desiredStatus ≠ "" →
      stripString (statusNameOf (o.getIssue key ["status"])) =
        stripString desiredStatus →
      maybeTransition o key desiredStatus dryRun =
        (.ok (), [.getIssue key ["status"]])) ∧
    (∀ (o : TransOracle) (key desiredStatus : String) (dryRun : Bool),
      stripString desiredStatus = "" →
      maybeTransition o key desiredStatus dryRun = (.ok (), [])) := by
  constructor
  · intro o key desiredStatus dryRun hne heq
    unfold maybeTransition
    rw [if_neg (by simp [hne]), if_pos (by simp [heq])]
  · intro o key desiredStatus dryRun he
    unfold maybeTransition
    rw [if_pos (by simp [he])]

/-- C6 counterexample: with the current status already `Done` and
desired status `Done`, the resolver performs one remote call (the
status fetch), not zero. -/
theorem C6_counterexample :
    maybeTransition oracleDone "WOR-1" "Done" false =
      (.ok (), [.getIssue "WOR-1" ["status"]]) ∧
      ([RemoteCall.getIssue "WOR-1" ["status"]] : List RemoteCall) ≠ [] :=
  ⟨rfl, List.cons_ne_nil _ _⟩

/-- Witness for C6 (amended) at `oracleDone`. -/
theorem C6_witness :
    maybeTransition oracleDone "WOR-1" "Done" false =
      (.ok (), [.getIssue "WOR-1" ["status"]]) :=
  C6_amended.1 oracleDone "WOR-1" "Done" false (by decide) rfl

/-- `find?` returns the head of the first satisfying suffix. -/
theorem find?_append_first {α : Type} (f : α → Bool) :
    ∀ (p : List α) (t : α) (q : List α), (∀ u ∈ p, f u = false) → f t = true →
      (p ++ t :: q).find? f = some t := by
  intro p t q hp ht
  induction p with
  | nil => simp [List.find?_cons, ht]
  | cons a p ih =>
    have ha : f a = false := hp a (List.mem_cons_self _ _)
    rw [List.cons_append, List.find?_cons, ha]
    exact ih fun u hu => hp u (List.mem_cons_of_mem _ hu)

/-- C8: with a non-empty desired label different from the current
status, `_maybe_transition` applies the first transition whose
destination name equals the desired label (first conjunct); when no
destination matches, the first transition whose own name equals the
label (second conjunct); and when neither matches, it fails with a
`TransitionError` carrying the available destination names (third
conjunct). -/
theorem C8_transition_selection (o : TransOracle) (key desiredStatus : String)
    (hne : stripString desiredStatus ≠ "")
    (hcur : stripString (statusNameOf (o.getIssue key ["status"])) ≠
      stripString desiredStatus) :
    (∀ p t q, o.getTransitions key = p ++ t :: q →
      (∀ u ∈ p, toMatches (stripString desiredStatus) u = false) →
      toMatches (stripString desiredStatus) t = true →
      transIdOk t = true →
      maybeTransition o key desiredStatus false =
        (.ok (), [.getIssue key ["status"], .getTransitions key,
                  .postTransition key (transId t)])) ∧
    (∀ p t q, o.getTransitions key = p ++ t :: q →
      (∀ u ∈ o.getTransitions key, toMatches (stripString desiredStatus) u = false) →
      (∀ u ∈ p, nameMatches (stripString desiredStatus) u = false) →
      nameMatches (stripString desiredStatus) t = true →
      transIdOk t = true →
      maybeTransition o key desiredStatus false =
        (.ok (), [.getIssue key ["status"], .getTransitions key,
                  .postTransition key (transId t)])) ∧
    ((∀ u ∈ o.getTransitions key, transToOk u = true) →
      (∀ u ∈ o.getTransitions key, toMatches (stripString desiredStatus) u = false ∧
        nameMatches (stripString desiredStatus) u = false) →
      maybeTransition o key desiredStatus false =
        (.error (.noTransition key (statusNameOf (o.getIssue key ["status"]))
            (stripString desiredStatus) ((o.getTransitions key).map availToName)),
         [.getIssue key ["status"], .getTransitions key])) := by
  have h1 : (stripString desiredStatus == "") = false := by simp [hne]
  have h2 : (stripString (statusNameOf (o.getIssue key ["status"])) ==
      stripString desiredStatus) = false := by simp [hcur]
  refine ⟨?_, ?_, ?_⟩
  · intro p t q hts hp ht hid
    have hfind : (o.getTransitions key).find? (toMatches (stripString desiredStatus)) =
        some t := by rw [hts]; exact find?_append_first _ p t q hp ht
    have hid2 : optTruthy (transId t) = true := hid
    unfold maybeTransition
    simp [h1, h2, hfind, hid2]
  · intro p t q hts hall hp ht hid
    have hfind1 : (o.getTransitions key).find? (toMatches (stripString desiredStatus)) =
        none := List.find?_eq_none.mpr fun u hu => by simp [hall u hu]
    have hfind2 : (o.getTransitions key).find? (nameMatches (stripString desiredStatus)) =
        some t := by rw [hts]; exact find?_append_first _ p t q hp ht
    have hid2 : optTruthy (transId t) = true := hid
    unfold maybeTransition
    simp [h1, h2, hfind1, hfind2, hid2, show optTruthy none = false from rfl]
  · intro hshape hnone
    have hfind1 : (o.getTransitions key).find? (toMatches (stripString desiredStatus)) =
        none := List.find?_eq_none.mpr fun u hu => by simp [(hnone u hu).1]
    have hfind2 : (o.getTransitions key).find? (nameMatches (stripString desiredStatus)) =
        none := List.find?_eq_none.mpr fun u hu => by simp [(hnone u hu).2]
    unfold maybeTransition
    simp [h1, h2, hfind1, hfind2, show optTruthy none = false from rfl]

/-- Witness for C8 at `oracleToDo` with desired status `Done`: the
second transition is the first destination match and its id is
applied. -/
theorem C8_witness :
    maybeTransition oracleToDo "WOR-1" "Done" false =
      (.ok (), [.getIssue "WOR-1" ["status"], .getTransitions "WOR-1",
                .postTransition "WOR-1" (some (.str "21"))]) :=
  (C8_transition_selection oracleToDo "WOR-1" "Done" (by decide) (by decide)).1
    [transStart] transDone [] rfl (by decide) (by decide) (by decide)

/-- C7: when the story update is rejected with the closed-sprint message
while the outgoing field set carries the sprint field, and the retry
without that field succeeds, the push performs exactly the two update
calls — the second with only the sprint field removed — and reports a
warning-qualified success.  (Stated with no subtask and transitions
disabled so that the phase's trace is exactly the two calls.) -/
theorem C7_sprint_retry (o : SyncOracle) (env : String → String)
    (storyKey : String) (storyFields subtaskFields : List (String × Json))
    (storyStatus subtaskStatus : String) (msg : String)
    (h1 : env "JIRA_BASE_URL" ≠ "") (h2 : env "JIRA_EMAIL" ≠ "")
    (h3 : env "JIRA_API_TOKEN" ≠ "")
    (hrej : o.updateFields storyKey storyFields = .error msg)
    (hmsg : hasSubstrStr sprintClosedMsg msg = true)
    (hsprint : (lookupJ CF_SPRINT storyFields).isSome = true)
    (hretry : o.updateFields storyKey
      (storyFields.filter fun p => p.1 ≠ CF_SPRINT) = .ok ()) :
    processParsedSync o env storyKey "" storyFields subtaskFields
      storyStatus subtaskStatus false true =
      ⟨true, [.putFields storyKey storyFields,
              .putFields storyKey (storyFields.filter fun p => p.1 ≠ CF_SPRINT)],
       [.sprintClosedRetry]⟩ := by
  have hphase : pushStoryPhase o storyKey storyFields =
      (true, [.putFields storyKey storyFields,
              .putFields storyKey (storyFields.filter fun p => p.1 ≠ CF_SPRINT)],
       [.sprintClosedRetry]) := by
    unfold pushStoryPhase
    simp only [ne_eq, decide_not] at hretry
    simp [hrej, hmsg, hsprint, hretry]
  unfold processParsedSync
  rw [if_neg (by simp [h1, h2, h3])]
  rw [if_neg (by simp)]
  rw [hphase]
  simp [transPhase]

/-- Witness for C7 at `oracleSprintClosed` and `sprintFieldsEx`. -/
theorem C7_witness :
    processParsedSync oracleSprintClosed (fun _ => "x") "WOR-1" ""
      sprintFieldsEx [] "To Do" "" false true =
      ⟨true, [.putFields "WOR-1" sprintFieldsEx,
              .putFields "WOR-1" (sprintFieldsEx.filter fun p => p.1 ≠ CF_SPRINT)],
       [.sprintClosedRetry]⟩ :=
  C7_sprint_retry oracleSprintClosed (fun _ => "x") "WOR-1" sprintFieldsEx []
    "To Do" "" "Issue can be assigned only active or future sprints"
    (by decide) (by decide) (by decide) rfl (by decide) (by decide) rfl

/-- C4: a document that parses successfully on the create path and whose
story already carries a non-empty remote identifier is reported as a
success with zero remote calls, whatever the rest of the create flow
would do. -/
theorem C4_create_skip_existing
    (extractAdf : Str → Except ParseErr (AdfMap × AdfMap))
    (extractSummary : Str → Str → Str)
    (rest : ParsedRecordC → Bool × List RemoteCall) (md : Str)
    (r : ParsedRecordC)
    (hp : parseComboRecordCreate extractAdf extractSummary md = .ok r)
    (hk : r.story.jiraKey ≠ []) :
    processCreateFile extractAdf extractSummary rest md = (true, []) := by
  unfold processCreateFile
  rw [hp]
  simp [hk]

/-- Witness for C4 at `docMismatch` (its story carries `WOR-1`), with a
`rest` continuation that would fail and perform a remote call if it were
reached. -/
theorem C4_witness :
    processCreateFile (fun _ => .ok ([], [])) (fun _ _ => [])
      (fun _ => (false, [.getIssue "X" []])) docMismatch = (true, []) :=
  C4_create_skip_existing (fun _ => .ok ([], [])) (fun _ _ => [])
    (fun _ => (false, [.getIssue "X" []])) docMismatch
    ⟨storyMismatch, subtaskMismatch, [], [], [], []⟩ rfl (by decide)

end JiraRecord
